import Mathlib

set_option maxHeartbeats 1000000

/-!
Verification of `discord/scheduled_event.py` (the `ScheduledEvent` entity proxy and its
cursor paginator) against its natural-language specification, via a shallow embedding.

Conventions of the embedding:
* Python dicts keyed by snowflake ids are association lists `List (Nat × _)` with unique
  keys; dict assignment and `dict.pop` are modelled so that the key occurs at most once.
* The mutable `_users` dict is aliased between proxy instances (`s._users = self._users`),
  so it lives in an explicit heap `Heap : Nat → UserMap`; a `ScheduledEvent` carries the
  reference `usersRef` into that heap, and `objId` models Python object identity.
* `datetime` values are reduced to the two observables the code uses: the `tzinfo is None`
  test (`aware`) and `isoformat()` (`iso`).
* `MISSING`-defaulted edit arguments are `Option`s; arguments that distinguish
  `MISSING` / explicit `None` / a value (`channel`, `location`) are the tri-state `Tri`.
* Enum-typed edit arguments model Python's open typing: `EnumArg.notEnum` is any value
  failing the `isinstance` check.
* The HTTP transport is a parameter: for `edit` a function from the outgoing payload to a
  response, for the paginator the list of successive batch responses (so non-compliant
  server responses can be simulated, as the spec asks).
-/

namespace DiscordSE

/-- A user record, reduced to the id the paginator and cache key on. -/
structure UserRec where
  id : Nat
deriving DecidableEq

/-- Model of the Python dict `self._users : Dict[int, User]`. -/
abbrev UserMap := List (Nat × UserRec)

/-- Store of user-cache dicts; `ScheduledEvent.usersRef` indexes into it, modelling that
the dict object is shared by reference between proxy instances. -/
def Heap := Nat → UserMap

/-- Write one cell of the heap. -/
def heapSet (h : Heap) (r : Nat) (m : UserMap) : Heap :=
  fun i => if i = r then m else h i

/-- `discord.enums.PrivacyLevel` (sole member `guild_only = 2`). -/
inductive PrivacyLevel
  | guild_only
deriving DecidableEq

def PrivacyLevel.value : PrivacyLevel → Nat
  | .guild_only => 2

/-- `discord.enums.EntityType` (`stage_instance = 1`, `voice = 2`, `external = 3`). -/
inductive EntityType
  | stage_instance
  | voice
  | external
deriving DecidableEq

def EntityType.value : EntityType → Nat
  | .stage_instance => 1
  | .voice => 2
  | .external => 3

/-- `discord.enums.EventStatus` (`scheduled = 1`, `active = 2`, `completed = 3`,
`cancelled = 4`). -/
inductive EventStatus
  | scheduled
  | active
  | completed
  | cancelled
deriving DecidableEq

def EventStatus.value : EventStatus → Nat
  | .scheduled => 1
  | .active => 2
  | .completed => 3
  | .cancelled => 4

/-- Result of `discord.enums.try_enum`: the known member for a recognized raw code, else a
fallback carrying the unrecognized raw value. -/
inductive TryEnum (α : Type)
  | known (a : α)
  | unknown (v : Nat)
deriving DecidableEq

/-- The raw enum code carried by a `TryEnum` value (`value` of a member, or the raw code of
an unrecognized value). -/
def TryEnum.rawWith {α : Type} (f : α → Nat) : TryEnum α → Nat
  | .known a => f a
  | .unknown v => v

def try_enum_privacy (v : Nat) : TryEnum PrivacyLevel :=
  if v = 2 then .known .guild_only else .unknown v

def try_enum_entity (v : Nat) : TryEnum EntityType :=
  match v with
  | 1 => .known .stage_instance
  | 2 => .known .voice
  | 3 => .known .external
  | _ => .unknown v

def try_enum_status (v : Nat) : TryEnum EventStatus :=
  match v with
  | 1 => .known .scheduled
  | 2 => .known .active
  | 3 => .known .completed
  | 4 => .known .cancelled
  | _ => .unknown v

/-- The nested entity-metadata sub-object (`{"location": ...}`). -/
structure EntityMetadata where
  location : Option String
deriving DecidableEq

/-- A server payload (JSON dict) for a scheduled event.  Since a dict can carry any keys,
both the key `metadata` (which `_update` reads) and the key `entity_metadata` (which the
API and `edit` itself use) are present as separate optional fields. -/
structure GuildScheduledEventPayload where
  id : Nat
  guild_id : Nat
  name : String
  description : Option String := none
  entity_type : Nat
  scheduled_start_time : String
  status : Nat
  privacy_level : Option Nat := none
  image : Option String := none
  user_count : Option Nat := none
  creator : Option UserRec := none
  scheduled_end_time : Option String := none
  channel_id : Option Nat := none
  metadata : Option EntityMetadata := none
  entity_metadata : Option EntityMetadata := none
deriving DecidableEq

/-- The `ScheduledEvent` proxy.  `location : Option (Option String)` distinguishes the
attribute never having been set (outer `none`, the `__slots__` uninitialized state) from
it being set to a possibly-null value by `_unroll_metadata`. -/
structure ScheduledEvent where
  objId : Nat
  usersRef : Nat
  id : Nat
  guild_id : Nat
  name : String
  description : String
  entity_type : TryEnum EntityType
  entity_id : Nat
  start_time : String
  privacy_level : TryEnum PrivacyLevel
  status : TryEnum EventStatus
  cover_image : Option String
  user_count : Nat
  creator : Option UserRec
  end_time : Option String
  channel_id : Option Nat
  location : Option (Option String)
deriving DecidableEq

/-- `ScheduledEvent._update(data)`: field-for-field re-hydration from a payload.  Note the
source reads `data['status']` for `privacy_level` (line 137), `data['id']` for `entity_id`
(line 135), and `data.get('metadata')` for the metadata sub-object (line 148); when that
key is absent the `location` attribute is left as it was (unset on a fresh instance). -/
def ScheduledEvent.update (self : ScheduledEvent) (data : GuildScheduledEventPayload) :
    ScheduledEvent :=
  { self with
    id := data.id
    guild_id := data.guild_id
    name := data.name
    description := data.description.getD ""
    entity_type := try_enum_entity data.entity_type
    entity_id := data.id
    start_time := data.scheduled_start_time
    privacy_level := try_enum_privacy data.status
    status := try_enum_status data.status
    cover_image := data.image
    user_count := data.user_count.getD 0
    creator := data.creator
    end_time := data.scheduled_end_time
    channel_id := data.channel_id
    location :=
      match data.metadata with
      | some m => some m.location
      | none => self.location }

/-- `ScheduledEvent.__init__`: allocate a fresh object (`objId`) with the given `_users`
dict reference, all data attributes unset, then `_update(data)`. -/
def ScheduledEvent.init (objId usersRef : Nat) (data : GuildScheduledEventPayload) :
    ScheduledEvent :=
  ScheduledEvent.update
    { objId := objId, usersRef := usersRef, id := 0, guild_id := 0, name := ""
      description := "", entity_type := .unknown 0, entity_id := 0, start_time := ""
      privacy_level := .unknown 0, status := .unknown 0, cover_image := none
      user_count := 0, creator := none, end_time := none, channel_id := none
      location := none } data

/-- A channel in the parent guild's registry. -/
structure ChannelRec where
  id : Nat
deriving DecidableEq

/-- The parent container: its live channel registry, keyed by channel id. -/
structure Guild where
  channels : List (Nat × ChannelRec)
deriving DecidableEq

/-- Modelled from the spec: `Guild.get_channel` (and the `guild` resolution it is reached
through) is code of this repository outside `src/`.  The spec describes the channel
accessor as resolving `channel_id` against the parent container's live channel registry:
a pure lookup returning null when the id is unset or absent from the registry, never a
fetch and never raising on a miss. -/
def Guild.get_channel (g : Guild) (cid : Option Nat) : Option ChannelRec :=
  match cid with
  | none => none
  | some i => g.channels.lookup i

/-- `ScheduledEvent.channel` property: `self.guild.get_channel(self.channel_id)`, with the
parent guild passed explicitly. -/
def ScheduledEvent.channel (self : ScheduledEvent) (guild : Guild) : Option ChannelRec :=
  guild.get_channel self.channel_id

/-- The exception raised by `dict.pop` on a missing key. -/
inductive PopErr
  | keyError
deriving DecidableEq

/-- `ScheduledEvent._pop_user(user_id)`: `self._users.pop(user_id)` — removes the entry,
raising `KeyError` when the key is absent.  (Removal from a unique-key dict is modelled by
filtering the key out.) -/
def ScheduledEvent.pop_user (self : ScheduledEvent) (h : Heap) (uid : Nat) :
    Except PopErr Heap :=
  match (h self.usersRef).lookup uid with
  | none => .error .keyError
  | some _ =>
      .ok (heapSet h self.usersRef ((h self.usersRef).filter (fun p => p.1 != uid)))

/-- Dict assignment `d[u.id] = u` on a unique-key association list. -/
def dictInsert (m : UserMap) (u : UserRec) : UserMap :=
  (u.id, u) :: m.filter (fun p => p.1 != u.id)

/-- `ScheduledEvent._add_user(user)`: `self._users[user.id] = user`. -/
def ScheduledEvent.add_user (self : ScheduledEvent) (h : Heap) (u : UserRec) : Heap :=
  heapSet h self.usersRef (dictInsert (h self.usersRef) u)

/-- Reusable concrete proxy: hydrated event with `user_count = 0`, `channel_id` unset,
external entity type, the `_users` dict at heap cell 0. -/
def evBase : ScheduledEvent :=
  { objId := 0, usersRef := 0, id := 10, guild_id := 20, name := "party"
    description := "", entity_type := .known .external, entity_id := 10
    start_time := "2030-01-01T00:00:00+00:00", privacy_level := .known .guild_only
    status := .known .scheduled, cover_image := none, user_count := 0, creator := none
    end_time := none, channel_id := none, location := none }

/-- Concrete proxy whose `channel_id` points at a channel absent from the registry. -/
def evChan5 : ScheduledEvent :=
  { evBase with channel_id := some 5 }

/-- Concrete guild registry holding only channel 1. -/
def guild0 : Guild :=
  ⟨[(1, ⟨1⟩)]⟩

/-- Empty heap. -/
def heap0 : Heap := fun _ => []

/-! ## The edit protocol -/

/-- A `datetime` argument, reduced to the observables `edit` uses: whether `tzinfo` is set
and the `isoformat()` string. -/
structure DateTime where
  aware : Bool
  iso : String
deriving DecidableEq

/-- Tri-state for edit arguments defaulting to the `MISSING` sentinel where the code also
distinguishes an explicit `None`. -/
inductive Tri (α : Type)
  | missing
  | null
  | val (a : α)
deriving DecidableEq

/-- An argument for an enum-typed parameter: either an actual member of the enum class, or
any other value (which fails the `isinstance` check). -/
inductive EnumArg (α : Type)
  | ofEnum (a : α)
  | notEnum
deriving DecidableEq

/-- The keyword arguments of `ScheduledEvent.edit` (`none` / `.missing` = `MISSING`).
`channel` is identified by its snowflake id. -/
structure EditArgs where
  name : Option String := none
  description : Option String := none
  channel : Tri Nat := .missing
  start_time : Option DateTime := none
  end_time : Option DateTime := none
  privacy_level : Option (EnumArg PrivacyLevel) := none
  entity_type : Option (EnumArg EntityType) := none
  status : Option (EnumArg EventStatus) := none
  image : Option String := none
  location : Tri String := .missing
deriving DecidableEq

/-- The partial payload `edit` builds and sends (`none` = key absent). -/
structure EditPayload where
  name : Option String := none
  scheduled_start_time : Option String := none
  description : Option String := none
  privacy_level : Option Nat := none
  status : Option Nat := none
  image : Option String := none
  entity_type : Option Nat := none
  channel_id : Option Nat := none
  scheduled_end_time : Option String := none
  entity_metadata : Option EntityMetadata := none
deriving DecidableEq

/-- Stand-in for the external `utils._bytes_to_base64_data` (not under `src/`): an
injective encoding marker; no claim depends on the encoding itself. -/
def bytes_to_base64_data (b : String) : String :=
  String.append "base64," b

/-- Local errors of `edit`: Python `TypeError`, Python `ValueError` (the class used for
timezone-naive datetimes), and a transport `HTTPException` carrying a code. -/
inductive EditErr
  | typeErr (msg : String)
  | valueErr (msg : String)
  | httpErr (code : Nat)
deriving DecidableEq

def startTimeNaiveMsg : String :=
  "start_time must be an aware datetime. Consider using discord.utils.utcnow() or datetime.datetime.now().astimezone() for local time."

def endTimeNaiveMsg : String :=
  "end_time must be an aware datetime. Consider using discord.utils.utcnow() or datetime.datetime.now().astimezone() for local time."

/-- Edit step 1 (source lines 360-361): `name`. -/
def stepName (a : EditArgs) (p : EditPayload) : EditPayload :=
  match a.name with
  | some n => { p with name := some n }
  | none => p

/-- Edit step 2 (lines 363-368): `start_time`, `ValueError` when timezone-naive. -/
def stepStartTime (a : EditArgs) (p : EditPayload) : Except EditErr EditPayload :=
  match a.start_time with
  | none => .ok p
  | some st =>
      if st.aware then .ok { p with scheduled_start_time := some st.iso }
      else .error (.valueErr startTimeNaiveMsg)

/-- Edit step 3 (lines 370-371): `description`. -/
def stepDescription (a : EditArgs) (p : EditPayload) : EditPayload :=
  match a.description with
  | some d => { p with description := some d }
  | none => p

/-- Edit step 4 (lines 373-377): `privacy_level`, `TypeError` on a non-member. -/
def stepPrivacy (a : EditArgs) (p : EditPayload) : Except EditErr EditPayload :=
  match a.privacy_level with
  | none => .ok p
  | some (.ofEnum pl) => .ok { p with privacy_level := some pl.value }
  | some .notEnum => .error (.typeErr "privacy_level must be of type PrivacyLevel.")

/-- Edit step 5 (lines 379-383): `status`, `TypeError` on a non-member. -/
def stepStatus (a : EditArgs) (p : EditPayload) : Except EditErr EditPayload :=
  match a.status with
  | none => .ok p
  | some (.ofEnum st) => .ok { p with status := some st.value }
  | some .notEnum => .error (.typeErr "status must be of type EventStatus")

/-- Edit step 6 (lines 385-387): `image`, base64-encoded. -/
def stepImage (a : EditArgs) (p : EditPayload) : EditPayload :=
  match a.image with
  | some b => { p with image := some (bytes_to_base64_data b) }
  | none => p

/-- Edit step 7 (lines 389-393): `entity_type`, `TypeError` on a non-member. -/
def stepEntityType (a : EditArgs) (p : EditPayload) : Except EditErr EditPayload :=
  match a.entity_type with
  | none => .ok p
  | some (.ofEnum e) => .ok { p with entity_type := some e.value }
  | some .notEnum => .error (.typeErr "entity_type must be of type EntityType")

/-- Line 395: `_entity_type = entity_type or self.entity_type` (`MISSING` is falsy; a
valid member, values 1-3, is truthy; the non-member case has already raised). -/
def effective_entity_type (self : ScheduledEvent) (a : EditArgs) : TryEnum EntityType :=
  match a.entity_type with
  | some (.ofEnum e) => .known e
  | _ => self.entity_type

/-- Line 397: the `_entity_type in (EntityType.stage_instance, EntityType.voice)` test
(false for an unrecognized raw entity type). -/
def isVoiceOrStage : TryEnum EntityType → Bool
  | .known .stage_instance => true
  | .known .voice => true
  | _ => false

/-- Edit step 8 (lines 397-424): the entity-type-conditional branch, including the
`entity_metadata` key that is attached iff the metadata dict is non-empty (it only ever
receives `location`, in the external branch). -/
def stepEntityBranch (self : ScheduledEvent) (a : EditArgs) (p : EditPayload) :
    Except EditErr EditPayload :=
  if isVoiceOrStage (effective_entity_type self a) then
    match a.channel with
    | .val cid =>
        match a.location with
        | .missing => .ok { p with channel_id := some cid }
        | _ => .error (.typeErr "location cannot be set when entity_type is voice or stage_instance")
    | _ => .error (.typeErr "channel must be set when entity_type is voice or stage_instance")
  else
    match a.channel with
    | .missing =>
        match a.location with
        | .val l =>
            match a.end_time with
            | none => .error (.typeErr "end_time must be set when entity_type is external")
            | some et =>
                if et.aware then
                  .ok { p with scheduled_end_time := some et.iso
                               entity_metadata := some { location := some l } }
                else .error (.valueErr endTimeNaiveMsg)
        | _ => .error (.typeErr "location must be set when entity_type is external")
    | _ => .error (.typeErr "channel cannot be set when entity_type is external")

/-- The local validation-and-payload-building phase of `edit` (lines 357-424), in source
order; the first failing check aborts with its exception. -/
def edit_payload (self : ScheduledEvent) (a : EditArgs) : Except EditErr EditPayload :=
  stepStartTime a (stepName a {}) >>= fun p1 =>
  stepPrivacy a (stepDescription a p1) >>= fun p2 =>
  stepStatus a p2 >>= fun p3 =>
  stepEntityType a (stepImage a p3) >>= fun p4 =>
  stepEntityBranch self a p4

/-- Outcome of a full `edit` call: the returned proxy or the raised exception, the heap of
user-cache dicts afterwards, and whether the transport was invoked. -/
structure EditOutcome where
  result : Except EditErr ScheduledEvent
  heap : Heap
  transport_called : Bool

/-- `ScheduledEvent.edit` (lines 357-429): build/validate the payload, call the transport,
and on success construct a brand-new proxy from the response with
`s._users = self._users` (the new instance gets a fresh `objId` and the same `usersRef`).
The heap is returned to express that `edit` itself never touches any user-cache dict. -/
def ScheduledEvent.edit (self : ScheduledEvent) (h : Heap) (a : EditArgs)
    (http : EditPayload → Except Nat GuildScheduledEventPayload) (freshId : Nat) :
    EditOutcome :=
  match edit_payload self a with
  | .error e => ⟨.error e, h, false⟩
  | .ok p =>
      match http p with
      | .error n => ⟨.error (.httpErr n), h, true⟩
      | .ok data => ⟨.ok (ScheduledEvent.init freshId self.usersRef data), h, true⟩

/-! ## The cursor paginator (`ScheduledEvent.users`) -/

/-- One transport call made by the paginator: the `limit=retrieve` argument and which of
the `before` / `after` keyword parameters carried the boundary cursor (the strategy in use
passes exactly one of them; the other keyword is never given). -/
structure HttpCall where
  retrieve : Int
  beforeParam : Option Nat
  afterParam : Option Nat
deriving DecidableEq

/-- The `while True` batch loop of `users` (lines 525-543), with the transport modelled as
the list of successive server responses (so a non-compliant response can be simulated).
Per iteration, in source order: compute `retrieve` and stop if `< 1`; issue the call via
the chosen strategy (`reverse = true` is `_after_strategy`: cursor in the `after`
parameter, advanced to the first element's id; `reverse = false` is `_before_strategy`:
cursor in `before`, advanced to the last element's id; a non-empty batch also decrements a
non-null limit); a batch shorter than 100 sets `limit = 0`; reverse the batch when
`reverse`; apply the client-side predicate filter when set; yield the survivors.
Returns the yielded records and the trace of transport calls. -/
def paginateLoop (reverse : Bool) (predicate : Option (UserRec → Bool)) :
    List (List UserRec) → Option Nat → Option Int → List UserRec × List HttpCall
  | [], _, _ => ([], [])
  | batch :: rest, state, limit =>
      let retrieve : Int := min (limit.getD 100) 100
      if retrieve < 1 then ([], [])
      else
        let call : HttpCall :=
          if reverse then ⟨retrieve, none, state⟩ else ⟨retrieve, state, none⟩
        let state1 : Option Nat :=
          if batch.isEmpty then state
          else (if reverse then batch.head? else batch.getLast?).map UserRec.id
        let limit1 : Option Int :=
          if batch.isEmpty then limit
          else limit.map (fun l => l - (batch.length : Int))
        let limit2 : Option Int := if batch.length < 100 then some 0 else limit1
        let out0 := if reverse then batch.reverse else batch
        let out := match predicate with | some f => out0.filter f | none => out0
        let next := paginateLoop reverse predicate rest state1 limit2
        (out ++ next.1, call :: next.2)

/-- What the caller observes from one traversal: the yielded records in order, and the
trace of transport calls issued. -/
structure PageResult where
  yields : List UserRec
  calls : List HttpCall
deriving DecidableEq

/-- Direction resolution (lines 509-512): newest-first (`reverse = false`,
`_before_strategy`) unless an `after` cursor was supplied; an explicit `oldest_first`
value selects the strategy directly (`true` = forward = `_after_strategy`). -/
def pageReverse (oldest_first : Option Bool) (after : Option Nat) : Bool :=
  match oldest_first with
  | none => after.isSome
  | some b => b

/-- `ScheduledEvent.users` (lines 452-543): effective limit defaults to `user_count`,
unbounded when that count is falsy; direction via `pageReverse`; the client-side filter is
`id < before.id` for forward traversal with a `before` boundary, and `id > after.id` for
backward traversal with an `after` boundary other than `OLDEST_OBJECT` (id 0); the
initial cursor is `after` for forward and `before` for backward traversal. -/
def ScheduledEvent.users (self : ScheduledEvent)
    (limit before after : Option Nat) (oldest_first : Option Bool)
    (transport : List (List UserRec)) : PageResult :=
  let limit0 : Option Int :=
    match limit with
    | none => if self.user_count = 0 then none else some (self.user_count : Int)
    | some l => some (l : Int)
  let reverse := pageReverse oldest_first after
  let predicate : Option (UserRec → Bool) :=
    if reverse then
      match before with
      | some b => some (fun u => decide (u.id < b))
      | none => none
    else
      match after with
      | some a2 => if a2 ≠ 0 then some (fun u => decide (a2 < u.id)) else none
      | none => none
  let state0 := if reverse then after else before
  let r := paginateLoop reverse predicate transport state0 limit0
  ⟨r.1, r.2⟩

/-! ## Concrete instances used by witnesses and counterexamples -/

/-- Concrete compliant payload carrying the `entity_metadata` sub-object with a location
(and no `metadata` key) — the shape the API and `edit` itself produce. -/
def payloadEntityMeta : GuildScheduledEventPayload :=
  { id := 1, guild_id := 2, name := "party", entity_type := 3
    scheduled_start_time := "2030-01-01T00:00:00+00:00", status := 1
    entity_metadata := some { location := some "Paris" } }

/-- Heap whose every cell holds the single-entry dict `{7: user 7}`. -/
def heap7 : Heap := fun _ => [(7, ⟨7⟩)]

/-- Transport double that accepts any edit payload and echoes a fixed response. -/
def httpEcho : EditPayload → Except Nat GuildScheduledEventPayload :=
  fun _ => .ok payloadEntityMeta

/-- `evBase` with a voice entity type. -/
def evVoice : ScheduledEvent :=
  { evBase with entity_type := .known .voice }

/-- Edit arguments for a voice event: a channel plus a timezone-naive `end_time`. -/
def argsVoiceNaiveEnd : EditArgs :=
  { channel := .val 5, end_time := some ⟨false, "2030-01-02T00:00:00"⟩ }

/-- Edit arguments for an external event: a location plus a timezone-naive `end_time`. -/
def argsExtNaive : EditArgs :=
  { location := .val "Loc", end_time := some ⟨false, "2030-01-02T00:00:00"⟩ }

/-- Valid edit arguments for an external event. -/
def argsExternal : EditArgs :=
  { location := .val "Loc", end_time := some ⟨true, "2030-01-02T00:00:00+00:00"⟩ }

/-- Edit arguments whose `start_time` is timezone-naive. -/
def argsNaiveStart : EditArgs :=
  { start_time := some ⟨false, "2030-01-01T00:00:00"⟩ }

/-- The proxy a successful `edit` of `evBase` via `httpEcho` returns (fresh object id 1,
same `_users` reference 0). -/
def editedEv : ScheduledEvent :=
  ScheduledEvent.init 1 0 payloadEntityMeta

/-! ## Helper lemmas -/

theorem except_bind_ok {ε α β : Type} {x : Except ε α} {f : α → Except ε β} {b : β}
    (h : (x >>= f) = .ok b) : ∃ a, x = .ok a ∧ f a = .ok b := by
  cases x with
  | error e => simp [Bind.bind, Except.bind] at h
  | ok a => exact ⟨a, rfl, h⟩

theorem lookup_filter_ne (m : UserMap) (k : Nat) :
    (m.filter (fun p => p.1 != k)).lookup k = none := by
  induction m with
  | nil => rfl
  | cons hd tl ih =>
      by_cases h : hd.1 = k
      · simpa [List.filter_cons, h] using ih
      · have hb : (hd.1 != k) = true := by simp [h]
        have hk : (k == hd.1) = false := by simp [Ne.symm h]
        rw [List.filter_cons, if_pos hb]
        cases hd with
        | mk k1 u1 =>
            simp only [List.lookup, hk]
            exact ih

theorem heapSet_same (h : Heap) (r : Nat) (m : UserMap) : heapSet h r m r = m := by
  simp [heapSet]

theorem rawWith_try_enum_privacy (v : Nat) :
    TryEnum.rawWith PrivacyLevel.value (try_enum_privacy v) = v := by
  unfold try_enum_privacy
  split
  · simp [TryEnum.rawWith, PrivacyLevel.value]
    omega
  · rfl

theorem rawWith_try_enum_status (v : Nat) :
    TryEnum.rawWith EventStatus.value (try_enum_status v) = v := by
  unfold try_enum_status
  split <;> rfl

theorem edit_eq_error (self : ScheduledEvent) (h : Heap) (a : EditArgs)
    (http : EditPayload → Except Nat GuildScheduledEventPayload) (freshId : Nat)
    (e : EditErr) (he : edit_payload self a = .error e) :
    ScheduledEvent.edit self h a http freshId = ⟨.error e, h, false⟩ := by
  unfold ScheduledEvent.edit
  rw [he]

theorem edit_eq_http_error (self : ScheduledEvent) (h : Heap) (a : EditArgs)
    (http : EditPayload → Except Nat GuildScheduledEventPayload) (freshId : Nat)
    (p : EditPayload) (n : Nat) (hp : edit_payload self a = .ok p)
    (hn : http p = .error n) :
    ScheduledEvent.edit self h a http freshId = ⟨.error (.httpErr n), h, true⟩ := by
  unfold ScheduledEvent.edit
  rw [hp]
  simp [hn]

theorem edit_eq_ok (self : ScheduledEvent) (h : Heap) (a : EditArgs)
    (http : EditPayload → Except Nat GuildScheduledEventPayload) (freshId : Nat)
    (p : EditPayload) (data : GuildScheduledEventPayload)
    (hp : edit_payload self a = .ok p) (hd : http p = .ok data) :
    ScheduledEvent.edit self h a http freshId
      = ⟨.ok (ScheduledEvent.init freshId self.usersRef data), h, true⟩ := by
  unfold ScheduledEvent.edit
  rw [hp]
  simp [hd]

/-! ## Claim theorems -/

/-- C1: the `channel` accessor is a pure lookup that returns null when `channel_id` is
unset or when no channel with that id is present in the parent container's channel
registry; it never raises on a miss (the accessor is a total function into `Option`). -/
theorem c1_channel_pure_lookup (g : Guild) (e : ScheduledEvent) :
    (e.channel_id = none → ScheduledEvent.channel e g = none) ∧
    (∀ i, e.channel_id = some i → g.channels.lookup i = none →
      ScheduledEvent.channel e g = none) := by
  constructor
  · intro h
    simp [ScheduledEvent.channel, Guild.get_channel, h]
  · intro i hi hl
    simp [ScheduledEvent.channel, Guild.get_channel, hi, hl]

theorem c1_channel_pure_lookup_witness :
    ScheduledEvent.channel evBase guild0 = none ∧
    ScheduledEvent.channel evChan5 guild0 = none :=
  ⟨(c1_channel_pure_lookup guild0 evBase).1 rfl,
   (c1_channel_pure_lookup guild0 evChan5).2 5 rfl (by decide)⟩

/-- C2 (code bug): hydration reads the key `metadata` (line 148) although the wire format
— and `edit` itself, line 424 — uses the key `entity_metadata`; so a compliant payload
whose `entity_metadata.location` is present leaves `location` unset, while the other
fields hydrate fine, and only a payload using the wrong key `metadata` populates it. -/
theorem c2_entity_metadata_key_mismatch :
    (ScheduledEvent.init 0 0 payloadEntityMeta).location = none ∧
    (ScheduledEvent.init 0 0 payloadEntityMeta).name = "party" ∧
    (ScheduledEvent.init 0 0 payloadEntityMeta).id = 1 ∧
    (ScheduledEvent.init 0 0
        { payloadEntityMeta with metadata := some { location := some "Paris" },
                                 entity_metadata := none }).location
      = some (some "Paris") :=
  ⟨rfl, rfl, rfl, rfl⟩

/-- C9: every hydration decodes `privacy_level` from the payload's `status` key (line
137), so `privacy_level` and `status` always carry the same raw enum code, and the
payload's `privacy_level` key is ignored; the proxies built by `__init__` (used both at
construction and for the proxy `edit` returns) inherit this from `_update`. -/
theorem c9_privacy_level_from_status (self : ScheduledEvent)
    (data : GuildScheduledEventPayload) (v : Option Nat) (oid r : Nat) :
    ((ScheduledEvent.update self data).privacy_level = try_enum_privacy data.status) ∧
    (TryEnum.rawWith PrivacyLevel.value (ScheduledEvent.update self data).privacy_level
      = data.status) ∧
    (TryEnum.rawWith EventStatus.value (ScheduledEvent.update self data).status
      = data.status) ∧
    (ScheduledEvent.update self { data with privacy_level := v }
      = ScheduledEvent.update self data) ∧
    ((ScheduledEvent.init oid r data).privacy_level = try_enum_privacy data.status) := by
  refine ⟨rfl, ?_, ?_, rfl, rfl⟩
  · exact rawWith_try_enum_privacy data.status
  · exact rawWith_try_enum_status data.status

/-- C10: `_pop_user` with an id absent from the local subscriber dict raises `KeyError`
(not a no-op); with the id present it removes the entry (so a subsequent lookup misses)
and returns nothing. -/
theorem c10_pop_user (h : Heap) (self : ScheduledEvent) (uid : Nat) :
    ((h self.usersRef).lookup uid = none →
      ScheduledEvent.pop_user self h uid = .error .keyError) ∧
    (∀ u, (h self.usersRef).lookup uid = some u →
      ∃ h2, ScheduledEvent.pop_user self h uid = .ok h2 ∧
        (h2 self.usersRef).lookup uid = none) := by
  constructor
  · intro hmiss
    simp [ScheduledEvent.pop_user, hmiss]
  · intro u hhit
    refine ⟨heapSet h self.usersRef ((h self.usersRef).filter (fun p => p.1 != uid)),
      ?_, ?_⟩
    · simp [ScheduledEvent.pop_user, hhit]
    · rw [heapSet_same]
      exact lookup_filter_ne _ uid

theorem c10_pop_user_witness :
    (ScheduledEvent.pop_user evBase heap7 9 = .error .keyError) ∧
    (∃ h2, ScheduledEvent.pop_user evBase heap7 7 = .ok h2 ∧
      (h2 evBase.usersRef).lookup 7 = none) :=
  ⟨(c10_pop_user heap7 evBase 9).1 (by decide),
   (c10_pop_user heap7 evBase 7).2 ⟨7⟩ (by decide)⟩

/-- C5: every local validation failure of `edit` surfaces before the transport is
invoked (same outcome for every transport, `transport_called = false`), a transport
failure propagates as-is, and in every case the heap of subscriber-cache dicts — hence
the original proxy's cache — is left unchanged (the original proxy's fields are values
the embedding never rebinds; only the brand-new proxy is constructed). -/
theorem c5_edit_fail_fast (h : Heap) (self : ScheduledEvent) (a : EditArgs)
    (http : EditPayload → Except Nat GuildScheduledEventPayload) (freshId : Nat) :
    ((ScheduledEvent.edit self h a http freshId).heap = h) ∧
    (∀ e, edit_payload self a = .error e →
      ScheduledEvent.edit self h a http freshId = ⟨.error e, h, false⟩) ∧
    (∀ p n, edit_payload self a = .ok p → http p = .error n →
      ScheduledEvent.edit self h a http freshId = ⟨.error (.httpErr n), h, true⟩) := by
  refine ⟨?_, ?_, ?_⟩
  · rcases hep : edit_payload self a with e | p
    · rw [edit_eq_error self h a http freshId e hep]
    · rcases hh : http p with n | data
      · rw [edit_eq_http_error self h a http freshId p n hep hh]
      · rw [edit_eq_ok self h a http freshId p data hep hh]
  · intro e he
    exact edit_eq_error self h a http freshId e he
  · intro p n hp hn
    exact edit_eq_http_error self h a http freshId p n hp hn

theorem c5_edit_fail_fast_witness :
    (ScheduledEvent.edit evBase heap0 argsNaiveStart httpEcho 1).heap = heap0 ∧
    ScheduledEvent.edit evBase heap0 argsNaiveStart httpEcho 1
      = ⟨.error (.valueErr startTimeNaiveMsg), heap0, false⟩ :=
  ⟨(c5_edit_fail_fast heap0 evBase argsNaiveStart httpEcho 1).1,
   (c5_edit_fail_fast heap0 evBase argsNaiveStart httpEcho 1).2.1 _ rfl⟩

/-- C8: a successful `edit` returns a distinct new instance (fresh object id) whose
subscriber-cache mapping is the very same mapping instance as the original proxy's (same
heap reference), so a subscriber added through the returned proxy is visible through the
original. -/
theorem c8_edit_shares_cache (h h2 : Heap) (self : ScheduledEvent) (a : EditArgs)
    (http : EditPayload → Except Nat GuildScheduledEventPayload) (freshId : Nat)
    (s : ScheduledEvent) (u : UserRec)
    (hok : (ScheduledEvent.edit self h a http freshId).result = .ok s)
    (hfresh : freshId ≠ self.objId) :
    s.usersRef = self.usersRef ∧ s.objId ≠ self.objId ∧
    ((ScheduledEvent.add_user s h2 u) self.usersRef).lookup u.id = some u := by
  rcases hep : edit_payload self a with e | p
  · rw [edit_eq_error self h a http freshId e hep] at hok
    simp at hok
  · rcases hh : http p with n | data
    · rw [edit_eq_http_error self h a http freshId p n hep hh] at hok
      simp at hok
    · rw [edit_eq_ok self h a http freshId p data hep hh] at hok
      simp only [Except.ok.injEq] at hok
      have hr : s.usersRef = self.usersRef := by rw [← hok]; rfl
      have ho : s.objId = freshId := by rw [← hok]; rfl
      refine ⟨hr, by rw [ho]; exact hfresh, ?_⟩
      rw [ScheduledEvent.add_user, hr, heapSet_same]
      simp [dictInsert, List.lookup]

theorem c8_edit_shares_cache_witness :
    editedEv.usersRef = evBase.usersRef ∧ editedEv.objId ≠ evBase.objId ∧
    ((ScheduledEvent.add_user editedEv heap0 ⟨7⟩) evBase.usersRef).lookup 7 = some ⟨7⟩ :=
  c8_edit_shares_cache heap0 heap0 evBase argsExternal httpEcho 1 editedEv ⟨7⟩ rfl
    (by decide)

/-- C3 counterexample: for a voice-type event, `edit` with a channel and a
timezone-naive `end_time` raises nothing locally — the transport is invoked (so no
`ValueError` precedes it), and the payload built simply drops `end_time` (no
`scheduled_end_time` key) — refuting `regardless of the effective entity type`. -/
theorem c3_counterexample :
    (ScheduledEvent.edit evVoice heap0 argsVoiceNaiveEnd httpEcho 1).transport_called
      = true ∧
    edit_payload evVoice argsVoiceNaiveEnd = .ok { channel_id := some 5 } :=
  ⟨rfl, rfl⟩

/-- C3 (amended): when the effective entity type is external (not voice/stage), a
supplied timezone-naive `end_time` makes `edit` fail with a local exception before any
transport call; the end-time check itself — reached when `channel` is absent and a
`location` is supplied — fails with the same `ValueError` class used for a naive
`start_time`.  (For voice/stage entity types a supplied `end_time` is ignored.) -/
theorem c3_end_time_naive_external (self : ScheduledEvent) (a : EditArgs) (h : Heap)
    (http : EditPayload → Except Nat GuildScheduledEventPayload) (freshId : Nat)
    (et : DateTime) (hext : isVoiceOrStage (effective_entity_type self a) = false)
    (het : a.end_time = some et) (hnaive : et.aware = false) :
    ((ScheduledEvent.edit self h a http freshId).transport_called = false ∧
      ∃ e, (ScheduledEvent.edit self h a http freshId).result = .error e) ∧
    (∀ l p, a.channel = .missing → a.location = .val l →
      stepEntityBranch self a p = .error (.valueErr endTimeNaiveMsg)) := by
  have hbranch : ∀ p q, stepEntityBranch self a p ≠ .ok q := by
    intro p q hq
    unfold stepEntityBranch at hq
    rw [hext] at hq
    simp only [Bool.false_eq_true, if_false] at hq
    cases hch : a.channel with
    | missing =>
        rw [hch] at hq
        cases hlo : a.location with
        | val l =>
            rw [hlo, het] at hq
            simp [hnaive] at hq
        | missing => rw [hlo] at hq; simp at hq
        | null => rw [hlo] at hq; simp at hq
    | null => rw [hch] at hq; simp at hq
    | val c => rw [hch] at hq; simp at hq
  have herr : ∃ e, edit_payload self a = .error e := by
    cases hep : edit_payload self a with
    | error e => exact ⟨e, rfl⟩
    | ok p =>
        exfalso
        obtain ⟨p1, h1, hr1⟩ := except_bind_ok hep
        obtain ⟨p2, h2, hr2⟩ := except_bind_ok hr1
        obtain ⟨p3, h3, hr3⟩ := except_bind_ok hr2
        obtain ⟨p4, h4, hr4⟩ := except_bind_ok hr3
        exact hbranch p4 p hr4
  obtain ⟨e, he⟩ := herr
  refine ⟨?_, ?_⟩
  · rw [edit_eq_error self h a http freshId e he]
    exact ⟨rfl, e, rfl⟩
  · intro l p hch hlo
    unfold stepEntityBranch
    rw [hext, hch, hlo, het]
    simp [hnaive]

theorem c3_end_time_naive_external_witness :
    (ScheduledEvent.edit evBase heap0 argsExtNaive httpEcho 1).transport_called = false ∧
    stepEntityBranch evBase argsExtNaive {} = .error (.valueErr endTimeNaiveMsg) :=
  ⟨(c3_end_time_naive_external evBase argsExtNaive heap0 httpEcho 1
      ⟨false, "2030-01-02T00:00:00"⟩ rfl rfl rfl).1.1,
   (c3_end_time_naive_external evBase argsExtNaive heap0 httpEcho 1
      ⟨false, "2030-01-02T00:00:00"⟩ rfl rfl rfl).2 "Loc" {} rfl rfl⟩

theorem paginateLoop_limit_zero (reverse : Bool) (pred : Option (UserRec → Bool))
    (t : List (List UserRec)) (st : Option Nat) :
    paginateLoop reverse pred t st (some 0) = ([], []) := by
  cases t with
  | nil => rfl
  | cons b rest =>
      rw [paginateLoop]
      norm_num

theorem paginateLoop_batches_exact (fin1 : List UserRec)
    (hfin : fin1.length < 100) (front : List (List UserRec))
    (hfront : ∀ b ∈ front, b.length = 100) :
    ∀ (extra : List (List UserRec)) (st : Option Nat),
      (paginateLoop false none (front ++ fin1 :: extra) st none).1.length
          = 100 * front.length + fin1.length ∧
      (paginateLoop false none (front ++ fin1 :: extra) st none).2.length
          = front.length + 1 := by
  induction front with
  | nil =>
      intro extra st
      rw [List.nil_append, paginateLoop]
      rw [if_neg (by norm_num)]
      simp [if_pos hfin, paginateLoop_limit_zero]
  | cons b fr ih =>
      intro extra st
      have hb : b.length = 100 := hfront b (by simp)
      have hbne : b.isEmpty = false := by
        cases b with
        | nil => simp at hb
        | cons u us => rfl
      have ihfr : ∀ b2 ∈ fr, b2.length = 100 := fun b2 hb2 => hfront b2 (by simp [hb2])
      have hrec := ih ihfr extra
      rw [List.cons_append, paginateLoop]
      rw [if_neg (by norm_num)]
      simp only [hbne, hb, Bool.false_eq_true, if_false, Option.map_none]
      rw [if_neg (by norm_num)]
      constructor
      · simp only [Option.map_none', List.length_append]
        rw [(hrec _).1, hb]
        simp only [List.length_cons]
        ring
      · simp only [Option.map_none', List.length_cons]
        rw [(hrec _).2]

/-- C6: with a falsy reported `user_count` (unbounded effective limit) and `limit=None`,
a transport producing `k` batches of exactly 100 records and then a batch of 37 yields
exactly `100*k + 37` records through exactly `k+1` transport calls, with no further
transport call after the short batch (any further prepared responses go unrequested). -/
theorem c6_unbounded_pagination (ev : ScheduledEvent) (front : List (List UserRec))
    (fin1 : List UserRec) (extra : List (List UserRec))
    (hcount : ev.user_count = 0) (hfront : ∀ b ∈ front, b.length = 100)
    (hfin : fin1.length = 37) :
    (ScheduledEvent.users ev none none none none (front ++ fin1 :: extra)).yields.length
        = 100 * front.length + 37 ∧
    (ScheduledEvent.users ev none none none none (front ++ fin1 :: extra)).calls.length
        = front.length + 1 := by
  have h := paginateLoop_batches_exact fin1 (by omega) front hfront extra none
  simp only [ScheduledEvent.users, pageReverse, hcount, if_pos rfl, Option.isSome_none,
    Bool.false_eq_true, if_false]
  rw [hfin] at h
  exact h

theorem c6_unbounded_pagination_witness :
    (ScheduledEvent.users evBase none none none none
        [List.replicate 100 ⟨1⟩, List.replicate 37 ⟨2⟩, [⟨9⟩]]).yields.length = 137 ∧
    (ScheduledEvent.users evBase none none none none
        [List.replicate 100 ⟨1⟩, List.replicate 37 ⟨2⟩, [⟨9⟩]]).calls.length = 2 :=
  c6_unbounded_pagination evBase [List.replicate 100 ⟨1⟩] (List.replicate 37 ⟨2⟩)
    [[⟨9⟩]] rfl (by simp) (by simp)

theorem paginateLoop_forward_calls (pred : Option (UserRec → Bool)) :
    ∀ (t : List (List UserRec)) (st : Option Nat) (lim : Option Int),
      ((paginateLoop true pred t st lim).2.all fun c => decide (c.beforeParam = none))
          = true ∧
      (st.isSome = true →
        ((paginateLoop true pred t st lim).2.all fun c => c.afterParam.isSome) = true) := by
  intro t
  induction t with
  | nil => intro st lim; exact ⟨rfl, fun _ => rfl⟩
  | cons b rest ih =>
      intro st lim
      by_cases hret : min (lim.getD 100) 100 < 1
      · rw [paginateLoop, if_pos hret]
        exact ⟨rfl, fun _ => rfl⟩
      · rw [paginateLoop, if_neg hret]
        refine ⟨?_, fun hst => ?_⟩
        · dsimp only
          simp only [List.all_cons, Bool.and_eq_true]
          exact ⟨by simp, (ih _ _).1⟩
        · dsimp only
          simp only [List.all_cons, Bool.and_eq_true]
          refine ⟨by simpa using hst, ?_⟩
          refine (ih _ _).2 ?_
          cases b with
          | nil => simpa using hst
          | cons u us => simp

theorem paginateLoop_forward_calls_mem (pred : Option (UserRec → Bool))
    (t : List (List UserRec)) (st : Option Nat) (lim : Option Int)
    (hst : st.isSome = true) (c : HttpCall)
    (hc : c ∈ (paginateLoop true pred t st lim).2) :
    c.beforeParam = none ∧ c.afterParam.isSome = true := by
  have h1 := (paginateLoop_forward_calls pred t st lim).1
  have h2 := (paginateLoop_forward_calls pred t st lim).2 hst
  rw [List.all_eq_true] at h1 h2
  exact ⟨of_decide_eq_true (h1 c hc), h2 c hc⟩

theorem paginateLoop_forward_before_mem (pred : Option (UserRec → Bool))
    (t : List (List UserRec)) (st : Option Nat) (lim : Option Int) (c : HttpCall)
    (hc : c ∈ (paginateLoop true pred t st lim).2) : c.beforeParam = none := by
  have h1 := (paginateLoop_forward_calls pred t st lim).1
  rw [List.all_eq_true] at h1
  exact of_decide_eq_true (h1 c hc)

theorem paginateLoop_backward_calls (pred : Option (UserRec → Bool)) :
    ∀ (t : List (List UserRec)) (st : Option Nat) (lim : Option Int),
      ((paginateLoop false pred t st lim).2.all fun c => decide (c.afterParam = none))
          = true := by
  intro t
  induction t with
  | nil => intro st lim; rfl
  | cons b rest ih =>
      intro st lim
      by_cases hret : min (lim.getD 100) 100 < 1
      · rw [paginateLoop, if_pos hret]
        rfl
      · rw [paginateLoop, if_neg hret]
        dsimp only
        simp only [List.all_cons, Bool.and_eq_true]
        exact ⟨by simp, ih _ _⟩

theorem paginateLoop_backward_calls_mem (pred : Option (UserRec → Bool))
    (t : List (List UserRec)) (st : Option Nat) (lim : Option Int) (c : HttpCall)
    (hc : c ∈ (paginateLoop false pred t st lim).2) : c.afterParam = none := by
  have h1 := paginateLoop_backward_calls pred t st lim
  rw [List.all_eq_true] at h1
  exact of_decide_eq_true (h1 c hc)

/-- C7: with `oldest_first` unspecified and an `after` cursor supplied, traversal is
forward (`_after_strategy`): every transport call passes its boundary through the
`after` parameter — never `before`, which is never given — and always passes one;
when `oldest_first` is explicitly set, its value alone selects the strategy: `true`
makes every call use only the `after` parameter, `false` only the `before` parameter. -/
theorem c7_direction_resolution (ev : ScheduledEvent) (limitArg bnd aft : Option Nat)
    (x : Nat) (transport : List (List UserRec)) :
    (pageReverse none (some x) = true) ∧
    (∀ c ∈ (ScheduledEvent.users ev limitArg bnd (some x) none transport).calls,
      c.beforeParam = none ∧ c.afterParam.isSome = true) ∧
    (∀ (bb : Bool) (aa : Option Nat), pageReverse (some bb) aa = bb) ∧
    (∀ c ∈ (ScheduledEvent.users ev limitArg bnd aft (some true) transport).calls,
      c.beforeParam = none) ∧
    (∀ c ∈ (ScheduledEvent.users ev limitArg bnd aft (some false) transport).calls,
      c.afterParam = none) := by
  refine ⟨rfl, ?_, fun bb aa => rfl, ?_, ?_⟩
  · intro c hc
    simp only [ScheduledEvent.users, pageReverse, Option.isSome_some, if_true] at hc
    exact paginateLoop_forward_calls_mem _ _ (some x) _ rfl c hc
  · intro c hc
    simp only [ScheduledEvent.users, pageReverse, if_true] at hc
    exact paginateLoop_forward_before_mem _ _ _ _ c hc
  · intro c hc
    simp only [ScheduledEvent.users, pageReverse, Bool.false_eq_true, if_false] at hc
    exact paginateLoop_backward_calls_mem _ _ _ _ c hc

theorem c7_direction_resolution_witness :
    pageReverse none (some 5) = true ∧
    (HttpCall.mk 100 none (some 5) ∈
        (ScheduledEvent.users evBase none none (some 5) none [[⟨7⟩]]).calls ∧
      (HttpCall.mk 100 none (some 5)).beforeParam = none ∧
      (HttpCall.mk 100 none (some 5)).afterParam.isSome = true) :=
  ⟨(c7_direction_resolution evBase none none none 5 [[⟨7⟩]]).1,
   by decide,
   (c7_direction_resolution evBase none none none 5 [[⟨7⟩]]).2.1 _ (by decide)⟩

theorem paginateLoop_filter_sound (reverse : Bool) (f : UserRec → Bool) :
    ∀ (t : List (List UserRec)) (st : Option Nat) (lim : Option Int),
      ((paginateLoop reverse (some f) t st lim).1.all f) = true := by
  intro t
  induction t with
  | nil => intro st lim; rfl
  | cons b rest ih =>
      intro st lim
      by_cases hret : min (lim.getD 100) 100 < 1
      · rw [paginateLoop, if_pos hret]
        rfl
      · rw [paginateLoop, if_neg hret]
        dsimp only
        simp only [List.all_append, Bool.and_eq_true]
        refine ⟨?_, ih _ _⟩
        rw [List.all_eq_true]
        intro u hu
        exact (List.mem_filter.mp hu).2

theorem paginateLoop_filter_mem (reverse : Bool) (f : UserRec → Bool)
    (t : List (List UserRec)) (st : Option Nat) (lim : Option Int) (u : UserRec)
    (hu : u ∈ (paginateLoop reverse (some f) t st lim).1) : f u = true := by
  have h1 := paginateLoop_filter_sound reverse f t st lim
  rw [List.all_eq_true] at h1
  exact h1 u hu

/-- C4 counterexample: in backward (newest-first) traversal — `oldest_first` unspecified,
no `after` cursor — with `before` of id 50 supplied, a non-compliant server batch
containing id 60 is yielded as-is: `before` is only passed as the request cursor, and no
client-side filter discards records with id ≥ 50. -/
theorem c4_counterexample :
    ¬ (∀ u ∈ (ScheduledEvent.users evBase none (some 50) none none [[⟨60⟩]]).yields,
        u.id < 50) := by
  decide

/-- C4 (amended): the client-side `before` filter belongs to forward traversal, not
backward: whenever traversal is forward (`oldest_first = true`, or unspecified with an
`after` cursor) and a `before` boundary is supplied, every yielded record has id strictly
less than the boundary id, even when a server batch includes larger ids; in backward
traversal the `before` boundary is only the advancing request cursor and nothing is
filtered (symmetrically, backward traversal filters on a supplied `after` boundary). -/
theorem c4_forward_before_filter (ev : ScheduledEvent) (limitArg aft : Option Nat)
    (b : Nat) (ofirst : Option Bool) (transport : List (List UserRec))
    (hrev : pageReverse ofirst aft = true) :
    ∀ u ∈ (ScheduledEvent.users ev limitArg (some b) aft ofirst transport).yields,
      u.id < b := by
  intro u hu
  simp only [ScheduledEvent.users, hrev, if_true] at hu
  exact of_decide_eq_true
    (paginateLoop_filter_mem true (fun v => decide (v.id < b)) transport aft _ u hu)

theorem c4_forward_before_filter_witness :
    UserRec.mk 40 ∈
      (ScheduledEvent.users evBase none (some 50) none (some true)
        [[⟨40⟩, ⟨60⟩]]).yields ∧
    (UserRec.mk 40).id < 50 :=
  ⟨by decide,
   c4_forward_before_filter evBase none none 50 (some true) [[⟨40⟩, ⟨60⟩]] rfl
     ⟨40⟩ (by decide)⟩

end DiscordSE
